import Mathlib

/-!
Verification of the gobmp TLV decoders: the BGP Open message decoder
(`UnmarshalBGPOpenMessage`), the SR Local Block decoder
(`UnmarshalSRLocalBlock`) and the MSD type/value decoder (`UnmarshalMSDTV`),
shallowly embedded over `List Nat` buffers (one `Nat` per byte).

Conventions of the embedding:
  * A Go function returning `(*T, error)` is modelled as returning
    `DecodeOut T × List Nat`: the first component is the outcome, the second
    is the input buffer as it stands after the call (explicit state passing,
    so that mutation of the buffer, if the code performed any, would be
    visible).  `DecodeOut.ok v` models `return &v, nil`; `DecodeOut.error e`
    models `return nil, err`; `DecodeOut.crash` models a Go runtime panic
    from an out-of-range index or slice expression.
  * Machine integers are `Nat`/`Int` with explicit reductions modulo the
    width where Go performs a conversion (`int16(...)`, `int32(...)`).
  * Functions of the repository that are referenced by the sources but whose
    definitions are not available (`UnmarshalBGPTLV`, `UnmarshalBGPCapability`,
    `UnmarshalSRLocalBlockTLV`) are modelled from the specification text and
    carry a doc comment saying so.
-/

/-- The decode errors produced by the embedded code.  Constructors carrying
a `Nat` record the value interpolated into the corresponding `fmt.Errorf`
message of the source; the last three are the error kinds the specification
assigns to the TLV machinery that is modelled from the spec. -/
inductive DecodeErr where
  | openLengthInvalid : Nat → DecodeErr
  | invalidOpenType : Nat → DecodeErr
  | invalidOpenVersion : Nat → DecodeErr
  | truncatedBuffer : DecodeErr
  | malformedTLV : DecodeErr
  | malformedCapability : DecodeErr
deriving DecidableEq

/-- Outcome of a Go decode call: `ok` models `return &v, nil`, `error`
models `return nil, err`, and `crash` models a runtime panic caused by an
out-of-range index or slice expression. -/
inductive DecodeOut (α : Type) where
  | ok : α → DecodeOut α
  | error : DecodeErr → DecodeOut α
  | crash : DecodeOut α
deriving DecidableEq

/-- Big-endian `binary.BigEndian.Uint16` on two bytes. -/
def beUint16 (hi lo : Nat) : Nat :=
  256 * (hi % 256) + lo % 256

/-- Big-endian `binary.BigEndian.Uint32` on four bytes. -/
def beUint32 (b0 b1 b2 b3 : Nat) : Nat :=
  16777216 * (b0 % 256) + 65536 * (b1 % 256) + 256 * (b2 % 256) + b3 % 256

/-- Go conversion `int16(v)` of a `uint16` value: two's complement
reinterpretation modulo 2^16. -/
def toInt16 (n : Nat) : Int :=
  if n % 65536 < 32768 then ((n % 65536 : Nat) : Int)
  else ((n % 65536 : Nat) : Int) - 65536

/-- Go conversion `int32(v)` of a `uint32` value: two's complement
reinterpretation modulo 2^32. -/
def toInt32 (n : Nat) : Int :=
  if n % 4294967296 < 2147483648 then ((n % 4294967296 : Nat) : Int)
  else ((n % 4294967296 : Nat) : Int) - 4294967296

/-- MSDTV defines MSD Type Value tuple (`pkg/base/msd-tv.go`).  The Go field
`Type` is rendered `Typ` because `Type` is a Lean keyword. -/
structure MSDTV where
  Typ : Nat
  Value : Nat
deriving DecidableEq

/-- The loop of `UnmarshalMSDTV`: `for p := 0; p < len(b); { tv.Type = b[p];
p++; tv.Value = b[p]; p++ }`, expressed over the bytes not yet consumed.
With one byte left, the loop guard `p < len(b)` holds, `b[p]` is read, and
the second read `b[p]` (after `p++`) indexes one past the end: a runtime
panic in Go, `crash` here. -/
def msdLoop : List Nat → DecodeOut (List MSDTV)
  | [] => DecodeOut.ok []
  | [_] => DecodeOut.crash
  | t :: v :: rest =>
    match msdLoop rest with
    | DecodeOut.ok tvs => DecodeOut.ok ({ Typ := t, Value := v } :: tvs)
    | e => e

/-- UnmarshalMSDTV builds slice of MSD Type Value tuples
(`pkg/base/msd-tv.go`).  The source contains no store into `b`, so the
buffer component of the result is the input buffer. -/
def UnmarshalMSDTV (b : List Nat) : DecodeOut (List MSDTV) × List Nat :=
  (msdLoop b, b)

/-- InformationalTLV: one decoded {type, length, value} optional parameter of
a BGP Open message.  The type is referenced by the sources (`OpenMessage`,
`GetCapabilities`) but defined elsewhere in the repository; its shape is the
spec's TLV Record.  Go field `Type` is rendered `Typ`. -/
structure InformationalTLV where
  Typ : Nat
  Length : Nat
  Value : List Nat
deriving DecidableEq

/-- Modelled from the spec: `UnmarshalBGPTLV` is not under the available
sources.  Per the spec's TLV Scanner contract it repeatedly reads type
(1 byte), length (1 byte) and `length` value bytes, stops when no bytes
remain, fails with `TruncatedBuffer` when a fixed field has fewer bytes than
required and with `MalformedTLV` when a declared length would read past the
region boundary. -/
def bgpTLVScan : Nat → List Nat → DecodeOut (List InformationalTLV)
  | _, [] => DecodeOut.ok []
  | _, [_] => DecodeOut.error DecodeErr.truncatedBuffer
  | 0, _ :: _ :: _ => DecodeOut.error DecodeErr.truncatedBuffer
  | fuel + 1, t :: l :: rest =>
    if l ≤ rest.length then
      match bgpTLVScan fuel (rest.drop l) with
      | DecodeOut.ok tlvs =>
          DecodeOut.ok ({ Typ := t, Length := l, Value := rest.take l } :: tlvs)
      | e => e
    else DecodeOut.error DecodeErr.malformedTLV

/-- Entry point of the optional-parameter TLV scan: the fuel, one unit per
scanned record, starts at the region's length; each record consumes at
least two bytes, so the fuel never runs out (the fuel-0 case with two or
more bytes left is unreachable). -/
def UnmarshalBGPTLV (b : List Nat) : DecodeOut (List InformationalTLV) :=
  bgpTLVScan b.length b

/-- LocalBlockTLV: one decoded SR Local Block sub-TLV.  The type is
referenced by `LocalBlock` but defined elsewhere in the repository; its
shape is the spec's TLV Record.  Go field `Type` is rendered `Typ`. -/
structure LocalBlockTLV where
  Typ : Nat
  Length : Nat
  Value : List Nat
deriving DecidableEq

/-- Modelled from the spec: `UnmarshalSRLocalBlockTLV` is not under the
available sources.  Same TLV Scanner contract as `UnmarshalBGPTLV`, emitting
`LocalBlockTLV` records. -/
def srLocalBlockTLVScan : Nat → List Nat → DecodeOut (List LocalBlockTLV)
  | _, [] => DecodeOut.ok []
  | _, [_] => DecodeOut.error DecodeErr.truncatedBuffer
  | 0, _ :: _ :: _ => DecodeOut.error DecodeErr.truncatedBuffer
  | fuel + 1, t :: l :: rest =>
    if l ≤ rest.length then
      match srLocalBlockTLVScan fuel (rest.drop l) with
      | DecodeOut.ok tlvs =>
          DecodeOut.ok ({ Typ := t, Length := l, Value := rest.take l } :: tlvs)
      | e => e
    else DecodeOut.error DecodeErr.malformedTLV

/-- Entry point of the sub-TLV scan; the fuel starts at the region's length
and never runs out, as in `UnmarshalBGPTLV`. -/
def UnmarshalSRLocalBlockTLV (b : List Nat) : DecodeOut (List LocalBlockTLV) :=
  srLocalBlockTLVScan b.length b

/-- LocalBlock defines SR Local Block TLV object (`sr` package).  It stores
the flags byte and the sub-TLVs; the buffer's reserved byte has no field. -/
structure LocalBlock where
  Flags : Nat
  TLV : List LocalBlockTLV
deriving DecidableEq

/-- UnmarshalSRLocalBlock builds SR Local Block object.  Line by line:
`lb.Flags = b[p]` with `p = 0` (a panic when the buffer is empty), skip the
reserved byte, then `UnmarshalSRLocalBlockTLV(b[p:])` with `p = 2` (the
slice expression `b[2:]` panics when `len(b) < 2`).  No store into `b`
occurs, so every branch returns the buffer unchanged. -/
def UnmarshalSRLocalBlock (b : List Nat) : DecodeOut LocalBlock × List Nat :=
  match b.get? 0 with
  | none => (DecodeOut.crash, b)
  | some flags =>
    if 2 ≤ b.length then
      match UnmarshalSRLocalBlockTLV (b.drop 2) with
      | DecodeOut.ok tlvs => (DecodeOut.ok { Flags := flags, TLV := tlvs }, b)
      | DecodeOut.error e => (DecodeOut.error e, b)
      | DecodeOut.crash => (DecodeOut.crash, b)
    else (DecodeOut.crash, b)

/-- BGPMinOpenMessageLength defines a minimum length of BGP Open Message. -/
def BGPMinOpenMessageLength : Nat := 29

/-- OpenMessage defines BGP Open Message structure.  Go field `Type` is
rendered `Typ`; `Length` and `HoldTime` are Go `int16` (hence `Int` here),
`MyAS` a `uint16`, `BGPID` a 4-byte slice. -/
structure OpenMessage where
  Length : Int
  Typ : Nat
  Version : Nat
  MyAS : Nat
  HoldTime : Int
  BGPID : List Nat
  OptParamLen : Nat
  OptionalParameters : List InformationalTLV
deriving DecidableEq

/-- The fixed-field part of `UnmarshalBGPOpenMessage`'s successful result:
`Length` from bytes 0-1 through `int16(binary.BigEndian.Uint16(...))`,
`Type` byte 2, `Version` byte 3, `MyAS` bytes 4-5, `HoldTime` bytes 6-7,
`BGPID` a copy of bytes 8-11, `OptParamLen` byte 12; the optional
parameters are the supplied decoded TLVs. -/
def mkOpen (b : List Nat) (tlvs : List InformationalTLV) : OpenMessage :=
  { Length := toInt16 (beUint16 (b.getD 0 0) (b.getD 1 0))
    Typ := b.getD 2 0
    Version := b.getD 3 0
    MyAS := beUint16 (b.getD 4 0) (b.getD 5 0)
    HoldTime := toInt16 (beUint16 (b.getD 6 0) (b.getD 7 0))
    BGPID := [b.getD 8 0, b.getD 9 0, b.getD 10 0, b.getD 11 0]
    OptParamLen := b.getD 12 0
    OptionalParameters := tlvs }

/-- UnmarshalBGPOpenMessage validate information passed in byte slice and
returns BGPOpenMessage object.  Control flow follows the source: the
minimum-length guard first, then the type-byte and version-byte checks,
then the fixed fields (all within bounds once `len(b) ≥ 29`), and finally
`UnmarshalBGPTLV(b[13 : 13+OptParamLen])` when `OptParamLen ≠ 0` — a slice
expression that panics (`crash`) when `13 + OptParamLen > len(b)`, since
the declared length is never validated against the buffer.  No store into
`b` occurs, so every branch returns the buffer unchanged. -/
def UnmarshalBGPOpenMessage (b : List Nat) : DecodeOut OpenMessage × List Nat :=
  if b.length < BGPMinOpenMessageLength then
    (DecodeOut.error (DecodeErr.openLengthInvalid b.length), b)
  else if b.getD 2 0 ≠ 1 then
    (DecodeOut.error (DecodeErr.invalidOpenType (b.getD 2 0)), b)
  else if b.getD 3 0 ≠ 4 then
    (DecodeOut.error (DecodeErr.invalidOpenVersion (b.getD 3 0)), b)
  else if b.getD 12 0 ≠ 0 then
    if 13 + b.getD 12 0 ≤ b.length then
      match UnmarshalBGPTLV ((b.drop 13).take (b.getD 12 0)) with
      | DecodeOut.ok tlvs => (DecodeOut.ok (mkOpen b tlvs), b)
      | DecodeOut.error e => (DecodeOut.error e, b)
      | DecodeOut.crash => (DecodeOut.crash, b)
    else (DecodeOut.crash, b)
  else (DecodeOut.ok (mkOpen b []), b)

/-- CapabilityData: the raw value bytes stored under one capability code in
the capability mapping. -/
structure CapabilityData where
  Value : List Nat
deriving DecidableEq

/-- Go-map lookup over the capability mapping rendered as an association
list in insertion order: a later insertion of the same code overwrites an
earlier one, so the lookup returns the last binding of the code. -/
def capLookup : List (Nat × CapabilityData) → Nat → Option CapabilityData
  | [], _ => none
  | e :: rest, k =>
    match capLookup rest k with
    | some v => some v
    | none => if e.1 = k then some e.2 else none

/-- Modelled from the spec: `UnmarshalBGPCapability` is not under the
available sources.  Per the spec it decodes one TLV's value bytes as a
nested TLV region — capability code (1 byte), length (1 byte), value — into
a mapping from capability code to its raw value bytes, failing with
`MalformedCapability` when the inner region is structurally invalid. -/
def bgpCapabilityScan : Nat → List Nat → DecodeOut (List (Nat × CapabilityData))
  | _, [] => DecodeOut.ok []
  | _, [_] => DecodeOut.error DecodeErr.malformedCapability
  | 0, _ :: _ :: _ => DecodeOut.error DecodeErr.malformedCapability
  | fuel + 1, c :: l :: rest =>
    if l ≤ rest.length then
      match bgpCapabilityScan fuel (rest.drop l) with
      | DecodeOut.ok m => DecodeOut.ok ((c, { Value := rest.take l }) :: m)
      | e => e
    else DecodeOut.error DecodeErr.malformedCapability

/-- Entry point of the capability scan; the fuel starts at the region's
length and never runs out, as in `UnmarshalBGPTLV`. -/
def UnmarshalBGPCapability (b : List Nat) : DecodeOut (List (Nat × CapabilityData)) :=
  bgpCapabilityScan b.length b

/-- The loop of `Is4BytesASCapable` over the optional parameters: skip TLVs
whose type is not 2; for the first type-2 TLV, decode its value as a
capability mapping — on a decode error, continue with the remaining TLVs;
on success, return `(int32(BigEndian.Uint32(cap.Value)), true)` when code 65
is present (`crash` models the panic of `Uint32` on a value shorter than 4
bytes) and `(0, false)` when it is absent. -/
def is4Loop : List InformationalTLV → DecodeOut (Int × Bool)
  | [] => DecodeOut.ok (0, false)
  | t :: rest =>
    if t.Typ ≠ 2 then is4Loop rest
    else
      match UnmarshalBGPCapability t.Value with
      | DecodeOut.error _ => is4Loop rest
      | DecodeOut.crash => DecodeOut.crash
      | DecodeOut.ok caps =>
        match capLookup caps 65 with
        | none => DecodeOut.ok (0, false)
        | some cp =>
          match cp.Value with
          | b0 :: b1 :: b2 :: b3 :: _ =>
              DecodeOut.ok (toInt32 (beUint32 b0 b1 b2 b3), true)
          | _ => DecodeOut.crash

/-- Is4BytesASCapable returns true or false if Open message originated by
4 bytes AS capable speaker; in case of true, it also returns 4 bytes
Autonomous System Number. -/
def OpenMessage.Is4BytesASCapable (m : OpenMessage) : DecodeOut (Int × Bool) :=
  is4Loop m.OptionalParameters

/-- A 29-byte session-open buffer whose optional-parameter region holds two
capability TLVs (type 2): the first wraps only capability code 1, the second
wraps code 65 with the 4-byte value 0x00000001.  The four bytes after the
declared 12-byte region pad the buffer to the minimum length and are
ignored by the decoder. -/
def openBufTwoCaps : List Nat :=
  [0, 29, 1, 4, 0, 1, 0, 90, 10, 0, 0, 1, 12,
   2, 2, 1, 0, 2, 6, 65, 4, 0, 0, 0, 1] ++ List.replicate 4 0

/-- The message `openBufTwoCaps` decodes to. -/
def openMsgTwoCaps : OpenMessage :=
  { Length := 29
    Typ := 1
    Version := 4
    MyAS := 1
    HoldTime := 90
    BGPID := [10, 0, 0, 1]
    OptParamLen := 12
    OptionalParameters := [{ Typ := 2, Length := 2, Value := [1, 0] },
                           { Typ := 2, Length := 6, Value := [65, 4, 0, 0, 0, 1] }] }

/-- A 29-byte session-open buffer whose single capability TLV (type 2)
wraps capability code 65 with the 4-byte value 0x00000001, padded past the
declared 8-byte region to the minimum length. -/
def openBufFourByteAS : List Nat :=
  [0, 29, 1, 4, 0, 1, 0, 90, 10, 0, 0, 1, 8,
   2, 6, 65, 4, 0, 0, 0, 1] ++ List.replicate 8 0

/-- The message `openBufFourByteAS` decodes to. -/
def openMsgFourByteAS : OpenMessage :=
  { Length := 29
    Typ := 1
    Version := 4
    MyAS := 1
    HoldTime := 90
    BGPID := [10, 0, 0, 1]
    OptParamLen := 8
    OptionalParameters := [{ Typ := 2, Length := 6, Value := [65, 4, 0, 0, 0, 1] }] }

/-- A minimal well-formed 29-byte session-open buffer: hold time 180,
identifier 10.0.0.1, no optional parameters. -/
def openBufPlain : List Nat :=
  [0, 29, 1, 4, 0, 0, 0, 180, 10, 0, 0, 1, 0] ++ List.replicate 16 0

/-- The message `openBufPlain` decodes to. -/
def openMsgPlain : OpenMessage :=
  { Length := 29
    Typ := 1
    Version := 4
    MyAS := 0
    HoldTime := 180
    BGPID := [10, 0, 0, 1]
    OptParamLen := 0
    OptionalParameters := [] }



/-- Helper: on a buffer of even length `2 * n`, the MSD loop succeeds and
returns one pair per consecutive two bytes of the buffer. -/
theorem msdLoop_even_spec (n : Nat) :
    ∀ b : List Nat, b.length = 2 * n →
      ∃ tvs, msdLoop b = DecodeOut.ok tvs ∧ tvs.length = n ∧
        ∀ i, i < n →
          tvs.get? i = some { Typ := b.getD (2 * i) 0, Value := b.getD (2 * i + 1) 0 } := by
  induction n with
  | zero =>
    intro b hb
    have hnil : b = [] := List.length_eq_zero.mp (by omega)
    subst hnil
    exact ⟨[], rfl, rfl, fun i hi => absurd hi (by omega)⟩
  | succ n ih =>
    intro b hb
    match b with
    | [] => simp at hb
    | [x] => simp at hb; omega
    | t :: v :: r =>
      have hr : r.length = 2 * n := by simp at hb; omega
      obtain ⟨tvs, htvs, hlen, hidx⟩ := ih r hr
      refine ⟨{ Typ := t, Value := v } :: tvs, ?_, ?_, ?_⟩
      · simp [msdLoop, htvs]
      · simp [hlen]
      · intro i hi
        cases i with
        | zero => simp
        | succ j =>
          have hj : j < n := by omega
          have e1 : 2 * (j + 1) = 2 * j + 1 + 1 := by ring
          rw [List.get?_cons_succ, e1]
          simp only [List.getD_cons_succ]
          exact hidx j hj

/-- C3: for every input buffer of even length `2 * n`, `UnmarshalMSDTV`
returns no error and returns exactly `n` type/value pairs in buffer order,
the `i`-th pair holding byte `2 * i` as its type and byte `2 * i + 1` as
its value, consuming the entire buffer in 2-byte strides. -/
theorem UnmarshalMSDTV_even_length_pairs (b : List Nat) (n : Nat)
    (h : b.length = 2 * n) :
    ∃ tvs, (UnmarshalMSDTV b).1 = DecodeOut.ok tvs ∧ tvs.length = n ∧
      ∀ i, i < n →
        tvs.get? i = some { Typ := b.getD (2 * i) 0, Value := b.getD (2 * i + 1) 0 } :=
  msdLoop_even_spec n b h

/-- Witness for C3 at the concrete buffer `[1, 2, 3, 4]`. -/
theorem UnmarshalMSDTV_even_length_pairs_witness :
    ∃ tvs, (UnmarshalMSDTV [1, 2, 3, 4]).1 = DecodeOut.ok tvs ∧ tvs.length = 2 ∧
      ∀ i, i < 2 →
        tvs.get? i = some { Typ := [1, 2, 3, 4].getD (2 * i) 0
                            Value := [1, 2, 3, 4].getD (2 * i + 1) 0 } :=
  UnmarshalMSDTV_even_length_pairs [1, 2, 3, 4] 2 (by decide)

/-- C2: the claim says an odd-length buffer makes `UnmarshalMSDTV` fail with
an explicit error without reading past the end; the code instead indexes
one byte past the end on its final iteration, a runtime panic (`crash`),
here evaluated at the one-byte buffer `[1]`. -/
theorem UnmarshalMSDTV_odd_length_crash :
    (UnmarshalMSDTV [1]).1 = DecodeOut.crash := by decide

/-- C1: the claim says the decoders return `TruncatedBuffer`/`MalformedTLV`
errors rather than ever reading out of bounds; the code instead panics
(`crash`): `UnmarshalSRLocalBlock` on the 1-byte buffer `[1]` evaluates the
slice `b[2:]` past the end, and `UnmarshalBGPOpenMessage` on a 29-byte
buffer whose optional-parameter-length byte declares 255 bytes slices
`b[13:268]` past the end. -/
theorem decoders_index_past_end_crash :
    (UnmarshalSRLocalBlock [1]).1 = DecodeOut.crash ∧
      (UnmarshalBGPOpenMessage
        ([0, 29, 1, 4, 0, 0, 0, 0, 10, 0, 0, 1, 255] ++ List.replicate 16 0)).1
      = DecodeOut.crash := by decide

/-- C4: every buffer shorter than 29 bytes makes `UnmarshalBGPOpenMessage`
fail with the length-mismatch error carrying the buffer's length; the guard
is the first statement of the function, before any field is read. -/
theorem UnmarshalBGPOpenMessage_short_fails (b : List Nat)
    (h : b.length < 29) :
    (UnmarshalBGPOpenMessage b).1
      = DecodeOut.error (DecodeErr.openLengthInvalid b.length) := by
  have h2 : b.length < BGPMinOpenMessageLength := h
  simp [UnmarshalBGPOpenMessage, h2]

/-- Witness for C4 at the empty buffer. -/
theorem UnmarshalBGPOpenMessage_short_fails_witness :
    (UnmarshalBGPOpenMessage []).1 = DecodeOut.error (DecodeErr.openLengthInvalid 0) :=
  UnmarshalBGPOpenMessage_short_fails [] (by decide)

/-- C5: on buffers of length at least 29, a type byte (offset 2) other
than 1 yields the unexpected-field-value error naming the message type and
carrying the actual byte; with type byte 1, a version byte (offset 3)
other than 4 yields the corresponding error for the version field. -/
theorem UnmarshalBGPOpenMessage_type_version_check (b : List Nat)
    (h : 29 ≤ b.length) :
    (b.getD 2 0 ≠ 1 →
      (UnmarshalBGPOpenMessage b).1
        = DecodeOut.error (DecodeErr.invalidOpenType (b.getD 2 0))) ∧
    (b.getD 2 0 = 1 → b.getD 3 0 ≠ 4 →
      (UnmarshalBGPOpenMessage b).1
        = DecodeOut.error (DecodeErr.invalidOpenVersion (b.getD 3 0))) := by
  have hlen : ¬ b.length < BGPMinOpenMessageLength := by
    simp only [BGPMinOpenMessageLength]; omega
  constructor
  · intro ht
    unfold UnmarshalBGPOpenMessage
    rw [if_neg hlen, if_pos ht]
  · intro ht hv
    unfold UnmarshalBGPOpenMessage
    rw [if_neg hlen, if_neg (not_not_intro ht), if_pos hv]

/-- Witness for C5 at the all-zero 29-byte buffer, whose type byte 0 is
rejected. -/
theorem UnmarshalBGPOpenMessage_type_version_check_witness :
    (UnmarshalBGPOpenMessage (List.replicate 29 0)).1
      = DecodeOut.error (DecodeErr.invalidOpenType 0) :=
  (UnmarshalBGPOpenMessage_type_version_check (List.replicate 29 0) (by decide)).1 (by decide)

/-- C9: no decoder mutates the input buffer: the buffer component each
decoder returns (the explicit state threaded through the embedding) is the
input buffer, on success, error and crash alike. -/
theorem decoders_preserve_buffer (b : List Nat) :
    (UnmarshalBGPOpenMessage b).2 = b ∧ (UnmarshalSRLocalBlock b).2 = b ∧
      (UnmarshalMSDTV b).2 = b := by
  refine ⟨?_, ?_, rfl⟩
  · unfold UnmarshalBGPOpenMessage
    repeat' split
    all_goals rfl
  · unfold UnmarshalSRLocalBlock
    repeat' split
    all_goals rfl

/-- C7: on a buffer of length at least 2 whose trailing bytes scan as a
valid sub-TLV region, `UnmarshalSRLocalBlock` returns a `LocalBlock` whose
`Flags` field is byte 0 and whose `TLV` field is the TLV scan of the bytes
from offset 2 on; the structure has no field for the reserved byte at
offset 1, so it is skipped, not stored. -/
theorem UnmarshalSRLocalBlock_flags_and_tlv (b : List Nat)
    (tlvs : List LocalBlockTLV) (hlen : 2 ≤ b.length)
    (hscan : UnmarshalSRLocalBlockTLV (b.drop 2) = DecodeOut.ok tlvs) :
    (UnmarshalSRLocalBlock b).1
      = DecodeOut.ok { Flags := b.getD 0 0, TLV := tlvs } := by
  cases b with
  | nil => simp at hlen
  | cons x b1 =>
    cases b1 with
    | nil => simp at hlen
    | cons y r =>
      have hr : UnmarshalSRLocalBlockTLV r = DecodeOut.ok tlvs := by
        simpa using hscan
      simp [UnmarshalSRLocalBlock, hr]

/-- Witness for C7 at the concrete buffer `[5, 9, 7, 0]`: flags byte 5,
reserved byte 9 dropped, one sub-TLV of type 7 and length 0. -/
theorem UnmarshalSRLocalBlock_flags_and_tlv_witness :
    (UnmarshalSRLocalBlock [5, 9, 7, 0]).1
      = DecodeOut.ok { Flags := 5, TLV := [{ Typ := 7, Length := 0, Value := [] }] } :=
  UnmarshalSRLocalBlock_flags_and_tlv [5, 9, 7, 0]
    [{ Typ := 7, Length := 0, Value := [] }] (by decide) (by decide)

/-- C10: on any buffer of length at least 29 with type byte 1 and version
byte 4 whose declared optional-parameter region decodes (it is absent, or
it lies within the buffer and scans successfully), decoding succeeds for
every value of the 2-byte Length header field, which is stored verbatim —
it is never compared against the actual buffer length. -/
theorem UnmarshalBGPOpenMessage_length_field_unchecked (b : List Nat)
    (h29 : 29 ≤ b.length) (ht : b.getD 2 0 = 1) (hv : b.getD 3 0 = 4)
    (hopt : b.getD 12 0 = 0 ∨
      (13 + b.getD 12 0 ≤ b.length ∧
        ∃ tlvs, UnmarshalBGPTLV ((b.drop 13).take (b.getD 12 0)) = DecodeOut.ok tlvs)) :
    ∃ m, (UnmarshalBGPOpenMessage b).1 = DecodeOut.ok m ∧
      m.Length = toInt16 (beUint16 (b.getD 0 0) (b.getD 1 0)) := by
  have hlen : ¬ b.length < BGPMinOpenMessageLength := by
    simp only [BGPMinOpenMessageLength]; omega
  rcases hopt with h0 | ⟨hb, tlvs, htlvs⟩
  · refine ⟨mkOpen b [], ?_, rfl⟩
    unfold UnmarshalBGPOpenMessage
    rw [if_neg hlen, if_neg (not_not_intro ht), if_neg (not_not_intro hv),
        if_neg (not_not_intro h0)]
  · by_cases h0 : b.getD 12 0 = 0
    · refine ⟨mkOpen b [], ?_, rfl⟩
      unfold UnmarshalBGPOpenMessage
      rw [if_neg hlen, if_neg (not_not_intro ht), if_neg (not_not_intro hv),
          if_neg (not_not_intro h0)]
    · refine ⟨mkOpen b tlvs, ?_, rfl⟩
      unfold UnmarshalBGPOpenMessage
      rw [if_neg hlen, if_neg (not_not_intro ht), if_neg (not_not_intro hv),
          if_pos h0, if_pos hb, htlvs]

/-- Witness for C10 at a 29-byte buffer whose Length field bytes are
`0xFFFF` (stored as -1 through the `int16` conversion) although the buffer
is 29 bytes long: decoding still succeeds. -/
theorem UnmarshalBGPOpenMessage_length_field_unchecked_witness :
    ∃ m, (UnmarshalBGPOpenMessage ([255, 255, 1, 4] ++ List.replicate 25 0)).1
        = DecodeOut.ok m ∧ m.Length = toInt16 (beUint16 255 255) :=
  UnmarshalBGPOpenMessage_length_field_unchecked ([255, 255, 1, 4] ++ List.replicate 25 0)
    (by decide) (by decide) (by decide) (Or.inl (by decide))

/-- C8 counterexample: on the empty buffer, `UnmarshalSRLocalBlock` neither
returns a decoded object with nil error nor a nil object with an error — it
panics (`crash`) indexing `b[0]`, so the claimed dichotomy fails for this
input. -/
theorem UnmarshalSRLocalBlock_empty_crash :
    (UnmarshalSRLocalBlock ([] : List Nat)).1 = DecodeOut.crash := by decide

/-- C8 (amended): whenever a decoder returns rather than panicking, the
result is all-or-nothing: an error returns no object (`DecodeOut.error`
carries none, as every `return nil, err` in the source), and a success
returns a fully-populated object — each field of a successfully returned
`OpenMessage` equals the value the wire bytes dictate, and likewise for
`LocalBlock`. -/
theorem decoders_full_or_error :
    (∀ b m, (UnmarshalBGPOpenMessage b).1 = DecodeOut.ok m →
      m.Length = toInt16 (beUint16 (b.getD 0 0) (b.getD 1 0)) ∧
      m.Typ = 1 ∧ m.Version = 4 ∧
      m.MyAS = beUint16 (b.getD 4 0) (b.getD 5 0) ∧
      m.HoldTime = toInt16 (beUint16 (b.getD 6 0) (b.getD 7 0)) ∧
      m.BGPID = [b.getD 8 0, b.getD 9 0, b.getD 10 0, b.getD 11 0] ∧
      m.OptParamLen = b.getD 12 0 ∧
      (b.getD 12 0 = 0 → m.OptionalParameters = []) ∧
      (b.getD 12 0 ≠ 0 →
        UnmarshalBGPTLV ((b.drop 13).take (b.getD 12 0))
          = DecodeOut.ok m.OptionalParameters)) ∧
    (∀ b lb, (UnmarshalSRLocalBlock b).1 = DecodeOut.ok lb →
      lb.Flags = b.getD 0 0 ∧
      UnmarshalSRLocalBlockTLV (b.drop 2) = DecodeOut.ok lb.TLV) := by
  constructor
  · intro b m h
    unfold UnmarshalBGPOpenMessage at h
    split at h
    · cases h
    · split at h
      · cases h
      · split at h
        · cases h
        · rename_i ht hv
          have ht2 : b.getD 2 0 = 1 := not_not.mp ht
          have hv2 : b.getD 3 0 = 4 := not_not.mp hv
          split at h
          · rename_i hopt
            split at h
            · split at h
              · rename_i tlvs htlvs
                have hm : mkOpen b tlvs = m := by
                  injection h
                subst hm
                refine ⟨rfl, ht2, hv2, rfl, rfl, rfl, rfl, ?_, ?_⟩
                · intro h0; exact absurd h0 hopt
                · intro _; exact htlvs
              · cases h
              · cases h
            · cases h
          · rename_i hopt
            have h0 : b.getD 12 0 = 0 := not_not.mp hopt
            have hm : mkOpen b [] = m := by
              injection h
            subst hm
            exact ⟨rfl, ht2, hv2, rfl, rfl, rfl, rfl, fun _ => rfl,
              fun hne => absurd h0 hne⟩
  · intro b lb h
    unfold UnmarshalSRLocalBlock at h
    split at h
    · cases h
    · rename_i flags hget
      split at h
      · split at h
        · rename_i tlvs htlvs
          have hlb : LocalBlock.mk flags tlvs = lb := by
            injection h
          subst hlb
          have hflags : b.getD 0 0 = flags := by
            cases b with
            | nil => cases hget
            | cons x r => simp at hget; simp [hget]
          exact ⟨hflags.symm, htlvs⟩
        · cases h
        · cases h
      · cases h

/-- Witness for C8 at the 29-byte buffer `openBufPlain` (no optional
parameters) and the 2-byte local-block buffer `[1, 0]`. -/
theorem decoders_full_or_error_witness :
    (openMsgPlain.Length = toInt16 (beUint16 0 29) ∧
      openMsgPlain.Typ = 1 ∧ openMsgPlain.Version = 4 ∧
      openMsgPlain.MyAS = beUint16 0 0 ∧
      openMsgPlain.HoldTime = toInt16 (beUint16 0 180) ∧
      openMsgPlain.BGPID = [10, 0, 0, 1] ∧
      openMsgPlain.OptParamLen = 0 ∧
      ((0 : Nat) = 0 → openMsgPlain.OptionalParameters = []) ∧
      ((0 : Nat) ≠ 0 →
        UnmarshalBGPTLV ((openBufPlain.drop 13).take 0)
          = DecodeOut.ok openMsgPlain.OptionalParameters)) ∧
    (({ Flags := 1, TLV := [] } : LocalBlock).Flags = 1 ∧
      UnmarshalSRLocalBlockTLV (([1, 0] : List Nat).drop 2)
        = DecodeOut.ok ({ Flags := 1, TLV := [] } : LocalBlock).TLV) :=
  ⟨decoders_full_or_error.1 openBufPlain openMsgPlain (by decide),
   decoders_full_or_error.2 [1, 0] { Flags := 1, TLV := [] } (by decide)⟩

/-- C6 counterexample: `openBufTwoCaps` decodes successfully to
`openMsgTwoCaps`, whose optional parameters contain a capability TLV
(type 2, the second one) whose capability mapping holds code 65 with the
4-byte value 0x00000001 — yet `Is4BytesASCapable` returns `(0, false)`,
because the loop stops at the first successfully-decoding type-2 TLV and
that one lacks code 65. -/
theorem Is4BytesASCapable_later_capability_ignored :
    (UnmarshalBGPOpenMessage openBufTwoCaps).1 = DecodeOut.ok openMsgTwoCaps ∧
    openMsgTwoCaps.OptionalParameters.getD 1 { Typ := 0, Length := 0, Value := [] }
      = { Typ := 2, Length := 6, Value := [65, 4, 0, 0, 0, 1] } ∧
    UnmarshalBGPCapability [65, 4, 0, 0, 0, 1]
      = DecodeOut.ok [(65, { Value := [0, 0, 0, 1] })] ∧
    capLookup [(65, { Value := [0, 0, 0, 1] })] 65 = some { Value := [0, 0, 0, 1] } ∧
    openMsgTwoCaps.Is4BytesASCapable = DecodeOut.ok (0, false) := by decide

/-- C6 (amended): for every successfully decoded session-open message, and
the first capability TLV (type 2) of its optional parameters whose value
decodes as a capability mapping (earlier parameters are not type 2 or fail
to decode): if that mapping holds code 65 with the 4-byte value 0x00000001
then `Is4BytesASCapable` returns `(1, true)`, and if it lacks code 65 then
`Is4BytesASCapable` returns `(0, false)`. -/
theorem Is4BytesASCapable_first_capability (b : List Nat) (m : OpenMessage)
    (pre rest : List InformationalTLV) (t : InformationalTLV)
    (caps : List (Nat × CapabilityData))
    (_hdec : (UnmarshalBGPOpenMessage b).1 = DecodeOut.ok m)
    (hsplit : m.OptionalParameters = pre ++ t :: rest)
    (hpre : ∀ u ∈ pre, u.Typ ≠ 2 ∨ ∃ e, UnmarshalBGPCapability u.Value = DecodeOut.error e)
    (ht : t.Typ = 2)
    (hcaps : UnmarshalBGPCapability t.Value = DecodeOut.ok caps) :
    (capLookup caps 65 = some { Value := [0, 0, 0, 1] } →
      m.Is4BytesASCapable = DecodeOut.ok (1, true)) ∧
    (capLookup caps 65 = none →
      m.Is4BytesASCapable = DecodeOut.ok (0, false)) := by
  have hskip : ∀ pre2 : List InformationalTLV,
      (∀ u ∈ pre2, u.Typ ≠ 2 ∨ ∃ e, UnmarshalBGPCapability u.Value = DecodeOut.error e) →
      is4Loop (pre2 ++ t :: rest) = is4Loop (t :: rest) := by
    intro pre2
    induction pre2 with
    | nil => intro _; rfl
    | cons u pre2 ih =>
      intro hp
      have hu := hp u (List.mem_cons_self u pre2)
      have htail := fun v hv => hp v (List.mem_cons_of_mem u hv)
      have step : is4Loop (u :: (pre2 ++ t :: rest)) = is4Loop (pre2 ++ t :: rest) := by
        rcases hu with hu | ⟨e, he⟩
        · simp [is4Loop, hu]
        · by_cases h2 : u.Typ ≠ 2
          · simp [is4Loop, h2]
          · simp [is4Loop, h2, he]
      rw [List.cons_append, step]
      exact ih htail
  have hbase : is4Loop (pre ++ t :: rest) = is4Loop (t :: rest) := hskip pre hpre
  unfold OpenMessage.Is4BytesASCapable
  rw [hsplit, hbase]
  constructor
  · intro hfound
    simp [is4Loop, ht, hcaps, hfound]
    decide
  · intro hnone
    simp [is4Loop, ht, hcaps, hnone]

/-- Witness for C6 at `openBufFourByteAS`: its only optional parameter is a
type-2 TLV wrapping code 65 with value 0x00000001, so `Is4BytesASCapable`
returns `(1, true)`. -/
theorem Is4BytesASCapable_first_capability_witness :
    openMsgFourByteAS.Is4BytesASCapable = DecodeOut.ok (1, true) :=
  (Is4BytesASCapable_first_capability openBufFourByteAS openMsgFourByteAS [] []
      { Typ := 2, Length := 6, Value := [65, 4, 0, 0, 0, 1] }
      [(65, { Value := [0, 0, 0, 1] })]
      (by decide) (by decide) (by simp) (by decide) (by decide)).1 (by decide)
